import Mathlib

/-
Shallow embedding of `src/importers/c++/src/region_io.cpp` from
multi-scale-label-map-extraction: the loaders for the hierarchical region
tree, the image shape and the run-length-encoded atomic-region assignment
stored in a MAT-file-style typed container (matio `matvar_t`).

The C++ exceptions are modelled by an explicit error type; `std::valarray`
buffers become `List Nat` (element type `size_t`, so written values pass
through the `size_t` conversion `toSizeT`); matio variables become the
inductive `MatVar` carrying exactly the header fields the code reads plus
typed views of the `data` payload.
-/

/-- Element/array type tags of a `matvar_t` (its `data_type` field): the tags
the loaders inspect, plus representatives for every other tag. -/
inductive MatType where
  | int32
  | int64
  | single
  | double
  | structType
  | cellType
  | utf8
  | logical
  | other
deriving DecidableEq

/-- Shallow model of matio's `matvar_t`: the header fields read by the code
(`data_type`, `rank`, `dims`, `isComplex`, `nbytes`, `data_size`) together
with typed views of the `data` payload: integer element buffers (`intData`,
for int32/int64 arrays), floating-point buffers as uninterpreted bit
patterns (`floatData`), the named struct fields at linear index 0
(`structFields`, what `Mat_VarGetStructField` searches) and the cell-array
elements (`cellData`, what `Mat_VarGetCellsLinear` returns). -/
inductive MatVar : Type where
  | mk (dataType : MatType) (rank : Nat) (dims : List Nat) (isComplex : Bool)
      (nbytes : Nat) (dataSize : Nat) (intData : List Int) (floatData : List Nat)
      (structFields : List (String × MatVar)) (cellData : List MatVar) : MatVar

def MatVar.dataType : MatVar → MatType
  | .mk t _ _ _ _ _ _ _ _ _ => t

def MatVar.rank : MatVar → Nat
  | .mk _ r _ _ _ _ _ _ _ _ => r

def MatVar.dims : MatVar → List Nat
  | .mk _ _ d _ _ _ _ _ _ _ => d

def MatVar.isComplex : MatVar → Bool
  | .mk _ _ _ c _ _ _ _ _ _ => c

def MatVar.nbytes : MatVar → Nat
  | .mk _ _ _ _ n _ _ _ _ _ => n

def MatVar.dataSize : MatVar → Nat
  | .mk _ _ _ _ _ s _ _ _ _ => s

def MatVar.intData : MatVar → List Int
  | .mk _ _ _ _ _ _ d _ _ _ => d

def MatVar.floatData : MatVar → List Nat
  | .mk _ _ _ _ _ _ _ f _ _ => f

def MatVar.structFields : MatVar → List (String × MatVar)
  | .mk _ _ _ _ _ _ _ _ fs _ => fs

def MatVar.cellData : MatVar → List MatVar
  | .mk _ _ _ _ _ _ _ _ _ cs => cs

/-- The errors thrown (as `std::exception`) by `region_io.cpp`, classified by
the spec's taxonomy and carrying the exact message string of the `throw`
site.  `oobWrite` is not a C++ exception: it marks the execution in which
`load_rle_data`'s `std::fill_n` writes past the end of the
`rows*cols`-element `valarray`, which is an out-of-bounds write (undefined
behavior) in the original. -/
inductive LoadError where
  | missingField (msg : String)
  | invalidShape (msg : String)
  | unsupportedType (msg : String)
  | oobWrite
deriving DecidableEq

/-- `get_total_element_count`: the product of the first `rank` entries of
`dims` (the C++ loop runs `dim` from `0` to `rank - 1`). -/
def get_total_element_count (arry : MatVar) : Nat :=
  (arry.dims.take arry.rank).foldl (fun a b => a * b) 1

/-- `Mat_VarGetStructField(v, name, MAT_BY_NAME, 0)`: the first field of the
struct at linear index 0 whose name matches, `none` (NULL) otherwise. -/
def lookupField : List (String × MatVar) → String → Option MatVar
  | [], _ => none
  | (n, v) :: rest, name => if n = name then some v else lookupField rest name

/-- `get_struct_field`: looks the field up by name; if it is absent (NULL) or
empty (`nbytes <= 0`), returns NULL when `optional` and throws
`"Struct is missing expected element: " + name` otherwise. -/
def get_struct_field (struct_array : MatVar) (name : String) (optional : Bool) :
    Except LoadError (Option MatVar) :=
  match lookupField struct_array.structFields name with
  | none =>
    if optional then .ok none
    else .error (.missingField ("Struct is missing expected element: " ++ name))
  | some out =>
    if out.nbytes = 0 then
      if optional then .ok none
      else .error (.missingField ("Struct is missing expected element: " ++ name))
    else .ok (some out)

/-- Modelled from the spec: `CompoundRegion` is declared in `region_map.h`,
which is not part of the sources; per the spec a Region is an ordered
sequence of integer superpixel identifiers drawn from 32/64-bit signed
domains and normalized on load to a single wide integer type, modelled as
`List Int` (the widening int32 → wide signed integer preserves values). -/
structure CompoundRegion where
  atomic_superpixels : List Int
deriving DecidableEq

/-- `load_region`: requires a struct array, reads the required field
`list_of_atomic_superpixels`, computes the element count as
`nbytes / data_size` and copies that many elements out of the int32 or
int64 buffer; any other element type throws. -/
def load_region (struct_array : MatVar) : Except LoadError CompoundRegion :=
  if struct_array.dataType ≠ MatType.structType then
    .error (.invalidShape "cells should have struct array")
  else
    match get_struct_field struct_array "list_of_atomic_superpixels" false with
    | .error e => .error e
    | .ok none =>
      -- unreachable: `get_struct_field` with `optional = false` never returns NULL
      .error (.missingField "Struct is missing expected element: list_of_atomic_superpixels")
    | .ok (some list_of_atomic_superpixels) =>
      let number_of_atomic_superpixels :=
        list_of_atomic_superpixels.nbytes / list_of_atomic_superpixels.dataSize
      if list_of_atomic_superpixels.dataType = MatType.int32 then
        .ok ⟨list_of_atomic_superpixels.intData.take number_of_atomic_superpixels⟩
      else if list_of_atomic_superpixels.dataType = MatType.int64 then
        .ok ⟨list_of_atomic_superpixels.intData.take number_of_atomic_superpixels⟩
      else
        .error (.unsupportedType "list_of_atomic_superpixels has unknown type")

/-- Modelled from the spec: `image_size` is declared in `region_map.h`, which
is not part of the sources; per the spec it is three integers `rows`,
`cols`, `stride` describing the image extent, fully constructed in one call
and immutable afterward. -/
structure image_size where
  rows : Int
  cols : Int
  stride : Int
deriving DecidableEq

/-- `load_image_size`: NULL input throws; then the shape must be rank 2,
non-complex, with dims exactly `1 × 3`; the three elements of an int64 or
int32 buffer map positionally to `rows`, `cols`, `stride`; any other
element type throws. -/
def load_image_size (image_shape : Option MatVar) : Except LoadError image_size :=
  match image_shape with
  | none => .error (.missingField "File dose not include image_shape.")
  | some image_shape =>
    if image_shape.rank ≠ 2 ∨ image_shape.isComplex = true ∨
        image_shape.dims.getD 0 0 ≠ 1 ∨ image_shape.dims.getD 1 0 ≠ 3 then
      .error (.invalidShape "image_shape is invalid.  ")
    else if image_shape.dataType = MatType.int64 then
      .ok ⟨image_shape.intData.getD 0 0, image_shape.intData.getD 1 0,
           image_shape.intData.getD 2 0⟩
    else if image_shape.dataType = MatType.int32 then
      .ok ⟨image_shape.intData.getD 0 0, image_shape.intData.getD 1 0,
           image_shape.intData.getD 2 0⟩
    else
      .error (.unsupportedType "image_shape has unknown type.")

/-- Conversion of a signed element to `size_t` (the element type of the
output `std::valarray<size_t>`): reduction modulo `2 ^ 64`. -/
def toSizeT (v : Int) : Nat :=
  (v % (2 ^ 64 : Int)).toNat

/-- The length of the output buffer `std::valarray<size_t>(size.rows*size.cols)`
as a natural number. -/
def bufLen (size : image_size) : Nat :=
  (size.rows * size.cols).toNat

/-- One `std::fill_n(itter, k, val)` step on a buffer at write position
`pos`: positions `pos, …, pos + k - 1` receive `val`. -/
def listFill (buf : List Nat) (pos k val : Nat) : List Nat :=
  buf.take pos ++ List.replicate k val ++ buf.drop (pos + k)

/-- The `(run_length, value)` pairs of the column-major RLE table: row `i` of
`n` pairs `data[i]` (run length) with `data[n + i]` (value). -/
def rlePairs (data : List Int) (n : Nat) : List (Int × Int) :=
  (List.range n).map (fun i => (data.getD i 0, data.getD (n + i) 0))

/-- The loop of `load_rle_data`: for each pair, `std::fill_n` writes
`run_length` copies of the value (converted to `size_t`) at the cursor and
advances it.  `std::fill_n` writes nothing for a non-positive count, hence
`Int.toNat`.  A step that would write past the end of the buffer is the
out-of-bounds write of the original (undefined behavior), modelled as
`none`. -/
def rle_fill (buf : List Nat) (pos : Nat) : List (Int × Int) → Option (List Nat)
  | [] => some buf
  | (run_lenght, value) :: rest =>
    let k := run_lenght.toNat
    if pos + k ≤ buf.length then
      rle_fill (listFill buf pos k (toSizeT value)) (pos + k) rest
    else
      none

/-- `load_rle_data`: zero-initializes a `rows*cols` buffer and runs the fill
loop over the `number_of_ellements` RLE rows. -/
def load_rle_data (data : List Int) (number_of_ellements : Nat) (size : image_size) :
    Option (List Nat) :=
  rle_fill (List.replicate (bufLen size) 0) 0 (rlePairs data number_of_ellements)

/-- `load_atomic_regions_from_rle`: NULL input throws; the variable must be
rank 2, non-complex, with second dimension 2; an int64 or int32 buffer is
decoded by `load_rle_data` with `number_of_ellements = dims[0]`; any other
element type throws.  The `none` outcome of `load_rle_data` is the
original's out-of-bounds write, surfaced as `LoadError.oobWrite`. -/
def load_atomic_regions_from_rle (atomic_region_rle : Option MatVar)
    (size : image_size) : Except LoadError (List Nat) :=
  match atomic_region_rle with
  | none => .error (.missingField "File does not include atomic_SLIC_rle")
  | some atomic_region_rle =>
    if atomic_region_rle.rank ≠ 2 ∨ atomic_region_rle.isComplex = true ∨
        atomic_region_rle.dims.getD 1 0 ≠ 2 then
      .error (.invalidShape "atomic_SLIC_rle is invalid.")
    else if atomic_region_rle.dataType = MatType.int64 then
      match load_rle_data atomic_region_rle.intData (atomic_region_rle.dims.getD 0 0) size with
      | some out => .ok out
      | none => .error .oobWrite
    else if atomic_region_rle.dataType = MatType.int32 then
      match load_rle_data atomic_region_rle.intData (atomic_region_rle.dims.getD 0 0) size with
      | some out => .ok out
      | none => .error .oobWrite
    else
      .error (.unsupportedType "atomic_SLIC_rle has unknown type.")

/-- Sum of the effective (non-negative, as filled by `std::fill_n`) run
lengths of an RLE pair list. -/
def runsTotal : List (Int × Int) → Nat
  | [] => 0
  | (run_lenght, _) :: rest => run_lenght.toNat + runsTotal rest

/-- The decoded sequence an RLE pair list describes: the concatenation, in
source order, of `run_length` repetitions of each value (as stored, i.e.
converted to the `size_t` element type of the output buffer). -/
def rleExpand : List (Int × Int) → List Nat
  | [] => []
  | (run_lenght, value) :: rest =>
    List.replicate run_lenght.toNat (toSizeT value) ++ rleExpand rest

/-- Modelled from the spec: the loaded `scale` of a `HierarchicalRegion` is a
single-precision float read from a single- or double-precision source and
narrowed to single precision (`region_map.h` is not part of the sources).
Floating-point arithmetic is not modelled: the value is recorded as the
source bit pattern tagged with the source width it was read from. -/
inductive ScaleVal where
  | ofSingle (bits : Nat)
  | ofDouble (bits : Nat)
deriving DecidableEq

/-- Modelled from the spec: `HierarchicalRegion` (declared in `region_map.h`,
not part of the sources) is a Region together with a scale and an ordered,
possibly empty sequence of child `HierarchicalRegion`s. -/
inductive HierarchicalRegion : Type where
  | mk (region : CompoundRegion) (scale : ScaleVal)
      (children_node : List HierarchicalRegion) : HierarchicalRegion

def HierarchicalRegion.region : HierarchicalRegion → CompoundRegion
  | .mk r _ _ => r

def HierarchicalRegion.scale : HierarchicalRegion → ScaleVal
  | .mk _ s _ => s

def HierarchicalRegion.children_node : HierarchicalRegion → List HierarchicalRegion
  | .mk _ _ c => c

/-- `Mat_VarGetCellsLinear(cell_array, 0, 1, n)`: the first `n` cells of the
cell array, NULL when the request cannot be satisfied. -/
def getCellsLinear (cell_array : MatVar) (n : Nat) : Option (List MatVar) :=
  if n ≤ cell_array.cellData.length then some (cell_array.cellData.take n) else none

/-- The length of a region node's child sequence: the number of cells of its
`children` field, `0` when the optional field is absent or empty. -/
def childCount (cell : MatVar) : Nat :=
  match get_struct_field cell "children" true with
  | .ok (some children) => children.cellData.length
  | _ => 0

theorem sizeOf_lookupField_lt {fs : List (String × MatVar)} {name : String}
    {c : MatVar} (h : lookupField fs name = some c) : sizeOf c < sizeOf fs := by
  induction fs with
  | nil => simp [lookupField] at h
  | cons p rest ih =>
    obtain ⟨n, v⟩ := p
    simp only [lookupField] at h
    by_cases hn : n = name
    · simp [hn] at h
      subst h
      simp
      omega
    · simp [hn] at h
      have := ih h
      simp
      omega

theorem sizeOf_structFields_lt (v : MatVar) : sizeOf v.structFields < sizeOf v := by
  cases v with
  | mk t r d c n s i f fs cs =>
    simp only [MatVar.structFields, MatVar.mk.sizeOf_spec]
    omega

theorem sizeOf_cellData_lt (v : MatVar) : sizeOf v.cellData < sizeOf v := by
  cases v with
  | mk t r d c n s i f fs cs =>
    simp only [MatVar.cellData, MatVar.mk.sizeOf_spec]
    omega

theorem sizeOf_get_struct_field_lt {v : MatVar} {name : String} {opt : Bool}
    {c : MatVar} (h : get_struct_field v name opt = .ok (some c)) :
    sizeOf c < sizeOf v := by
  unfold get_struct_field at h
  cases hl : lookupField v.structFields name with
  | none =>
    rw [hl] at h
    by_cases ho : opt <;> simp [ho] at h
  | some out =>
    rw [hl] at h
    by_cases hb : out.nbytes = 0
    · by_cases ho : opt <;> simp [hb, ho] at h
    · simp [hb] at h
      subst h
      exact Nat.lt_trans (sizeOf_lookupField_lt hl) (sizeOf_structFields_lt v)

theorem sizeOf_list_take_le {α : Type} [SizeOf α] (n : Nat) (l : List α) :
    sizeOf (l.take n) ≤ sizeOf l := by
  induction l generalizing n with
  | nil => simp [List.take]
  | cons a rest ih =>
    cases n with
    | zero => simp; omega
    | succ m =>
      simp only [List.take]
      have := ih m
      simp
      omega

theorem sizeOf_getCellsLinear_lt {v : MatVar} {n : Nat} {cells : List MatVar}
    (h : getCellsLinear v n = some cells) : sizeOf cells < sizeOf v := by
  unfold getCellsLinear at h
  by_cases hn : n ≤ v.cellData.length
  · simp [hn] at h
    subst h
    exact Nat.lt_of_le_of_lt (sizeOf_list_take_le n v.cellData) (sizeOf_cellData_lt v)
  · simp [hn] at h

mutual

/-- `load_region_node_from_cell_array`: requires a cell array with
`nbytes >= 1`, obtains the `get_total_element_count` cells linearly
(failure of `Mat_VarGetCellsLinear` throws) and loads every cell; an error
anywhere frees the cell pointer array and re-throws unchanged. -/
def load_region_node_from_cell_array (cell_array : MatVar) :
    Except LoadError (List HierarchicalRegion) :=
  if cell_array.dataType ≠ MatType.cellType ∨ cell_array.nbytes < 1 then
    .error (.invalidShape "Invalid tree data structure")
  else
    match h : getCellsLinear cell_array (get_total_element_count cell_array) with
    | none => .error (.invalidShape "Invalid tree data structure")
    | some all_cells => load_region_node_list all_cells
termination_by (sizeOf cell_array, 0)
decreasing_by
  exact Prod.Lex.left _ _ (sizeOf_getCellsLinear_lt h)

/-- The `for` loop of `load_region_node_from_cell_array` over the extracted
cells: the first error aborts the loop (the C++ catch block frees the cell
pointer array and re-throws the error unchanged, so the caller observes
exactly the originating error and no partial output). -/
def load_region_node_list (cells : List MatVar) :
    Except LoadError (List HierarchicalRegion) :=
  match cells with
  | [] => .ok []
  | cell :: rest =>
    match load_region_node_single cell with
    | .error e => .error e
    | .ok node =>
      match load_region_node_list rest with
      | .error e => .error e
      | .ok nodes => .ok (node :: nodes)
termination_by (sizeOf cells, 1)
decreasing_by
  · exact Prod.Lex.left _ _ (by simp; try omega)
  · exact Prod.Lex.left _ _ (by simp; try omega)

/-- The body of the loop of `load_region_node_from_cell_array` for one cell:
load the region, read the required `scale` field (single or double
precision only), and recursively load the optional `children` field. -/
def load_region_node_single (cell : MatVar) : Except LoadError HierarchicalRegion :=
  match load_region cell with
  | .error e => .error e
  | .ok region =>
    match get_struct_field cell "scale" false with
    | .error e => .error e
    | .ok none =>
      -- unreachable: `get_struct_field` with `optional = false` never returns NULL
      .error (.missingField "Struct is missing expected element: scale")
    | .ok (some scale) =>
      if scale.dataType = MatType.single then
        load_region_node_children cell region (ScaleVal.ofSingle (scale.floatData.getD 0 0))
      else if scale.dataType = MatType.double then
        load_region_node_children cell region (ScaleVal.ofDouble (scale.floatData.getD 0 0))
      else
        .error (.unsupportedType "Scale has unknown type")
termination_by (sizeOf cell, 2)
decreasing_by
  · exact Prod.Lex.right _ (by omega)
  · exact Prod.Lex.right _ (by omega)

/-- The tail of the loop body: the optional `children` lookup and the
recursive load of the subregions (absent children leave the node's
default-empty child list). -/
def load_region_node_children (cell : MatVar) (region : CompoundRegion)
    (scale : ScaleVal) : Except LoadError HierarchicalRegion :=
  match h : get_struct_field cell "children" true with
  | .error e => .error e
  | .ok none => .ok ⟨region, scale, []⟩
  | .ok (some children) =>
    match load_region_node_from_cell_array children with
    | .error e => .error e
    | .ok children_node => .ok ⟨region, scale, children_node⟩
termination_by (sizeOf cell, 1)
decreasing_by
  exact Prod.Lex.left _ _ (sizeOf_get_struct_field_lt h)

end

theorem rleExpand_length (pairs : List (Int × Int)) :
    (rleExpand pairs).length = runsTotal pairs := by
  induction pairs with
  | nil => rfl
  | cons p rest ih =>
    obtain ⟨r, v⟩ := p
    simp [rleExpand, runsTotal, ih]

/-- The fill loop, run on a buffer whose prefix `done` is already written and
whose remainder is still zero, writes the expansion of the remaining pairs
after `done` and leaves the tail zero, provided the remaining run lengths
fit. -/
theorem rle_fill_spec (pairs : List (Int × Int)) :
    ∀ (done : List Nat) (L : Nat), done.length + runsTotal pairs ≤ L →
    rle_fill (done ++ List.replicate (L - done.length) 0) done.length pairs =
      some (done ++ rleExpand pairs ++
        List.replicate (L - done.length - runsTotal pairs) 0) := by
  induction pairs with
  | nil =>
    intro done L _
    simp [rle_fill, rleExpand, runsTotal]
  | cons p rest ih =>
    intro done L hfit
    obtain ⟨r, v⟩ := p
    have hrt : runsTotal ((r, v) :: rest) = r.toNat + runsTotal rest := rfl
    have hdle : done.length ≤ L := by omega
    have hlen : (done ++ List.replicate (L - done.length) 0).length = L := by
      simp
      omega
    have hcond : done.length + r.toNat ≤ (done ++ List.replicate (L - done.length) 0).length := by
      rw [hlen]
      omega
    have hfill : listFill (done ++ List.replicate (L - done.length) 0) done.length r.toNat
        (toSizeT v) =
        (done ++ List.replicate r.toNat (toSizeT v)) ++
          List.replicate (L - (done ++ List.replicate r.toNat (toSizeT v)).length) 0 := by
      unfold listFill
      rw [List.take_left, List.drop_append, List.drop_replicate]
      simp [List.append_assoc]
      omega
    rw [rle_fill, if_pos hcond, hfill]
    have harg : (done ++ List.replicate r.toNat (toSizeT v)).length = done.length + r.toNat := by
      simp
    rw [show done.length + r.toNat = (done ++ List.replicate r.toNat (toSizeT v)).length from
      harg.symm]
    rw [ih (done ++ List.replicate r.toNat (toSizeT v)) L (by rw [harg]; omega)]
    simp [rleExpand, List.append_assoc, harg]
    omega

/-- C1. For a rank-2, non-complex, int32 or int64 RLE variable with `n` rows
and second dimension 2, stored column-major, whose run lengths sum to at
most `rows*cols`, `load_atomic_regions_from_rle` returns a buffer of length
`rows*cols` equal to the concatenation, in source order, of `run_length[i]`
repetitions of (the `size_t` image of) `value[i]`, with every position past
the total run length at the buffer's initial zero. -/
theorem load_atomic_regions_from_rle_decodes (v : MatVar) (size : image_size) (n : Nat)
    (hn : n = v.dims.getD 0 0)
    (hrank : v.rank = 2) (hcx : v.isComplex = false) (hd1 : v.dims.getD 1 0 = 2)
    (ht : v.dataType = MatType.int32 ∨ v.dataType = MatType.int64)
    (hlen : v.intData.length = 2 * n)
    (hfit : runsTotal (rlePairs v.intData n) ≤ bufLen size) :
    load_atomic_regions_from_rle (some v) size =
      .ok (rleExpand (rlePairs v.intData n) ++
        List.replicate (bufLen size - runsTotal (rlePairs v.intData n)) 0) ∧
    (rleExpand (rlePairs v.intData n) ++
        List.replicate (bufLen size - runsTotal (rlePairs v.intData n)) 0).length =
      bufLen size := by
  have hshape : ¬ (v.rank ≠ 2 ∨ v.isComplex = true ∨ v.dims.getD 1 0 ≠ 2) := by
    intro h
    rcases h with h | h | h
    · exact h hrank
    · rw [hcx] at h
      exact Bool.false_ne_true h
    · exact h hd1
  have hdata : load_rle_data v.intData (v.dims.getD 0 0) size =
      some (rleExpand (rlePairs v.intData n) ++
        List.replicate (bufLen size - runsTotal (rlePairs v.intData n)) 0) := by
    unfold load_rle_data
    rw [← hn]
    have := rle_fill_spec (rlePairs v.intData n) [] (bufLen size) (by simpa using hfit)
    simpa using this
  constructor
  · simp only [load_atomic_regions_from_rle]
    rw [if_neg hshape]
    rcases ht with ht | ht
    · rw [ht, if_neg (by decide : ¬ (MatType.int32 = MatType.int64)),
        if_pos (rfl : MatType.int32 = MatType.int32), hdata]
    · rw [ht, if_pos (rfl : MatType.int64 = MatType.int64), hdata]
  · simp [rleExpand_length]
    omega

/-- C1 witness: the spec's own example, pairs `[(3, 7), (2, 9)]` with
`rows*cols = 5`, decodes to `[7, 7, 7, 9, 9]`. -/
theorem load_atomic_regions_from_rle_decodes_witness :
    load_atomic_regions_from_rle
        (some (.mk .int32 2 [2, 2] false 16 4 [3, 2, 7, 9] [] [] [])) ⟨1, 5, 0⟩ =
      .ok (rleExpand (rlePairs [3, 2, 7, 9] 2) ++
        List.replicate (bufLen ⟨1, 5, 0⟩ - runsTotal (rlePairs [3, 2, 7, 9] 2)) 0) ∧
    runsTotal (rlePairs [3, 2, 7, 9] 2) ≤ bufLen ⟨1, 5, 0⟩ ∧
    rleExpand (rlePairs [3, 2, 7, 9] 2) ++
        List.replicate (bufLen ⟨1, 5, 0⟩ - runsTotal (rlePairs [3, 2, 7, 9] 2)) 0 =
      [7, 7, 7, 9, 9] := by
  refine ⟨?_, by decide, by decide⟩
  exact (load_atomic_regions_from_rle_decodes
    (.mk .int32 2 [2, 2] false 16 4 [3, 2, 7, 9] [] [] []) ⟨1, 5, 0⟩ 2
    (by decide) (by decide) (by decide) (by decide) (.inl rfl) (by decide) (by decide)).1

/-- C3 (code bug). On an RLE input whose run lengths sum to `5` against a
`rows*cols = 3` buffer, the original performs an out-of-bounds
`std::fill_n` write (undefined behavior, modelled as `oobWrite`) instead of
failing with the spec's `RleOverrunError` hardening. -/
theorem load_atomic_regions_from_rle_overrun_is_oob_write :
    load_atomic_regions_from_rle
        (some (.mk .int32 2 [1, 2] false 8 4 [5, 7] [] [] [])) ⟨1, 3, 0⟩ =
      .error .oobWrite ∧
    runsTotal (rlePairs [5, 7] 1) = 5 ∧ bufLen ⟨1, 3, 0⟩ = 3 := by
  exact ⟨rfl, rfl, rfl⟩

/-- C10. The `stride` component of `image_size` has no effect on
`load_atomic_regions_from_rle`: two sizes agreeing on `rows` and `cols`
give identical results on every input. -/
theorem load_atomic_regions_from_rle_stride_irrelevant (v : Option MatVar)
    (s1 s2 : image_size) (hr : s1.rows = s2.rows) (hc : s1.cols = s2.cols) :
    load_atomic_regions_from_rle v s1 = load_atomic_regions_from_rle v s2 := by
  have hb : bufLen s1 = bufLen s2 := by
    unfold bufLen
    rw [hr, hc]
  cases v with
  | none => rfl
  | some v =>
    unfold load_atomic_regions_from_rle load_rle_data
    rw [hb]

/-- C10 witness: two sizes sharing `rows = 1`, `cols = 5` but with strides
`0` and `99` decode the same concrete RLE input identically. -/
theorem load_atomic_regions_from_rle_stride_irrelevant_witness :
    load_atomic_regions_from_rle
        (some (.mk .int32 2 [2, 2] false 16 4 [3, 2, 7, 9] [] [] [])) ⟨1, 5, 0⟩ =
      load_atomic_regions_from_rle
        (some (.mk .int32 2 [2, 2] false 16 4 [3, 2, 7, 9] [] [] [])) ⟨1, 5, 99⟩ :=
  load_atomic_regions_from_rle_stride_irrelevant
    (some (.mk .int32 2 [2, 2] false 16 4 [3, 2, 7, 9] [] [] [])) ⟨1, 5, 0⟩ ⟨1, 5, 99⟩
    rfl rfl

theorem get_struct_field_found {v f : MatVar} {name : String} {opt : Bool}
    (h : lookupField v.structFields name = some f) (hn : f.nbytes ≠ 0) :
    get_struct_field v name opt = .ok (some f) := by
  unfold get_struct_field
  rw [h]
  simp [hn]

theorem get_struct_field_absent {v : MatVar} {name : String}
    (h : lookupField v.structFields name = none) :
    get_struct_field v name false =
      .error (.missingField ("Struct is missing expected element: " ++ name)) ∧
    get_struct_field v name true = .ok none := by
  unfold get_struct_field
  rw [h]
  exact ⟨rfl, rfl⟩

theorem get_struct_field_empty {v f : MatVar} {name : String}
    (h : lookupField v.structFields name = some f) (hn : f.nbytes = 0) :
    get_struct_field v name false =
      .error (.missingField ("Struct is missing expected element: " ++ name)) ∧
    get_struct_field v name true = .ok none := by
  unfold get_struct_field
  rw [h]
  simp [hn]

theorem get_struct_field_optional_no_error (v : MatVar) (name : String) (e : LoadError) :
    get_struct_field v name true ≠ .error e := by
  unfold get_struct_field
  cases lookupField v.structFields name with
  | none => simp
  | some out =>
    by_cases hn : out.nbytes = 0 <;> simp [hn]

/-- C8. A field lookup with `optional = false` on a record whose field is
absent or empty fails with a `MissingFieldError` whose message carries the
field's name; with `optional = true` the same lookup returns the explicit
absent indicator (NULL) and does not fail. -/
theorem get_struct_field_missing_spec (v : MatVar) (name : String)
    (h : lookupField v.structFields name = none ∨
      ∃ f, lookupField v.structFields name = some f ∧ f.nbytes = 0) :
    get_struct_field v name false =
      .error (.missingField ("Struct is missing expected element: " ++ name)) ∧
    get_struct_field v name true = .ok none := by
  rcases h with h | ⟨f, hf, hn⟩
  · exact get_struct_field_absent h
  · exact get_struct_field_empty hf hn

/-- C8 witness: a record without a `"scale"` field. -/
theorem get_struct_field_missing_spec_witness :
    get_struct_field (.mk .structType 2 [1, 1] false 8 8 [] [] [] []) "scale" false =
      .error (.missingField ("Struct is missing expected element: " ++ "scale")) ∧
    get_struct_field (.mk .structType 2 [1, 1] false 8 8 [] [] [] []) "scale" true =
      .ok none :=
  get_struct_field_missing_spec (.mk .structType 2 [1, 1] false 8 8 [] [] [] []) "scale"
    (.inl rfl)

/-- C7. An element type tag outside int32/int64 passed to the Region Loader,
the Shape Loader, or the RLE Decoder fails with `UnsupportedTypeError`; it
is never silently coerced to an accepted type. -/
theorem unsupported_type_rejected :
    (∀ v sp : MatVar, v.dataType = MatType.structType →
      lookupField v.structFields "list_of_atomic_superpixels" = some sp →
      sp.nbytes ≠ 0 → sp.dataType ≠ MatType.int32 → sp.dataType ≠ MatType.int64 →
      load_region v =
        .error (.unsupportedType "list_of_atomic_superpixels has unknown type")) ∧
    (∀ v : MatVar, v.rank = 2 → v.isComplex = false → v.dims = [1, 3] →
      v.dataType ≠ MatType.int32 → v.dataType ≠ MatType.int64 →
      load_image_size (some v) =
        .error (.unsupportedType "image_shape has unknown type.")) ∧
    (∀ (v : MatVar) (size : image_size), v.rank = 2 → v.isComplex = false →
      v.dims.getD 1 0 = 2 →
      v.dataType ≠ MatType.int32 → v.dataType ≠ MatType.int64 →
      load_atomic_regions_from_rle (some v) size =
        .error (.unsupportedType "atomic_SLIC_rle has unknown type.")) := by
  refine ⟨?_, ?_, ?_⟩
  · intro v sp hs hf hn h32 h64
    unfold load_region
    rw [if_neg (by simp [hs]), get_struct_field_found hf hn]
    simp [h32, h64]
  · intro v hrank hcx hdims h32 h64
    simp only [load_image_size]
    have hshape : ¬ (v.rank ≠ 2 ∨ v.isComplex = true ∨
        v.dims.getD 0 0 ≠ 1 ∨ v.dims.getD 1 0 ≠ 3) := by
      intro h
      rcases h with h | h | h | h
      · exact h hrank
      · rw [hcx] at h
        exact Bool.false_ne_true h
      · rw [hdims] at h
        exact h rfl
      · rw [hdims] at h
        exact h rfl
    rw [if_neg hshape, if_neg h64, if_neg h32]
  · intro v size hrank hcx hd1 h32 h64
    simp only [load_atomic_regions_from_rle]
    have hshape : ¬ (v.rank ≠ 2 ∨ v.isComplex = true ∨ v.dims.getD 1 0 ≠ 2) := by
      intro h
      rcases h with h | h | h
      · exact h hrank
      · rw [hcx] at h
        exact Bool.false_ne_true h
      · exact h hd1
    rw [if_neg hshape, if_neg h64, if_neg h32]

/-- C7 witness: a double-precision membership list, a logical image shape and
a utf8 RLE table are all rejected as unsupported. -/
theorem unsupported_type_rejected_witness :
    load_region (.mk .structType 2 [1, 1] false 8 8 [] []
        [("list_of_atomic_superpixels", .mk .double 2 [1, 1] false 8 8 [] [3] [] [])] []) =
      .error (.unsupportedType "list_of_atomic_superpixels has unknown type") ∧
    load_image_size (some (.mk .logical 2 [1, 3] false 3 1 [] [] [] [])) =
      .error (.unsupportedType "image_shape has unknown type.") ∧
    load_atomic_regions_from_rle (some (.mk .utf8 2 [1, 2] false 2 1 [] [] [] []))
        ⟨1, 3, 0⟩ =
      .error (.unsupportedType "atomic_SLIC_rle has unknown type.") :=
  ⟨unsupported_type_rejected.1 _ _ rfl rfl (by decide) (by decide) (by decide),
   unsupported_type_rejected.2.1 _ rfl rfl rfl (by decide) (by decide),
   unsupported_type_rejected.2.2 _ ⟨1, 3, 0⟩ rfl rfl rfl (by decide) (by decide)⟩

theorem list_len2_ne_pair {l : List Nat} (hl : l.length = 2) (hne : l ≠ [1, 3]) :
    l.getD 0 0 ≠ 1 ∨ l.getD 1 0 ≠ 3 := by
  cases l with
  | nil => simp at hl
  | cons x t =>
    cases t with
    | nil => simp at hl
    | cons y t2 =>
      cases t2 with
      | nil =>
        by_cases hx : x = 1
        · subst hx
          right
          intro hy
          simp [List.getD] at hy
          exact hne (by rw [hy])
        · left
          simpa [List.getD] using hx
      | cons z t3 => simp at hl

/-- C5. `loadImageSize` on a rank-2, non-complex value with dims `[1, 3]` and
int32 or int64 elements `[a, b, c]` yields `rows = a`, `cols = b`,
`stride = c` positionally; on any value (with a consistent `dims` vector)
whose rank is not 2, that is complex, or whose dims are not `[1, 3]`, it
fails with `InvalidShapeError`. -/
theorem load_image_size_spec :
    (∀ (v : MatVar) (a b c : Int), v.rank = 2 → v.isComplex = false →
      v.dims = [1, 3] →
      (v.dataType = MatType.int32 ∨ v.dataType = MatType.int64) →
      v.intData = [a, b, c] →
      load_image_size (some v) = .ok ⟨a, b, c⟩) ∧
    (∀ v : MatVar, v.dims.length = v.rank →
      (v.rank ≠ 2 ∨ v.isComplex = true ∨ v.dims ≠ [1, 3]) →
      load_image_size (some v) = .error (.invalidShape "image_shape is invalid.  ")) := by
  constructor
  · intro v a b c hrank hcx hdims ht hdata
    simp only [load_image_size]
    have hshape : ¬ (v.rank ≠ 2 ∨ v.isComplex = true ∨
        v.dims.getD 0 0 ≠ 1 ∨ v.dims.getD 1 0 ≠ 3) := by
      intro h
      rcases h with h | h | h | h
      · exact h hrank
      · rw [hcx] at h
        exact Bool.false_ne_true h
      · rw [hdims] at h
        exact h rfl
      · rw [hdims] at h
        exact h rfl
    rw [if_neg hshape]
    rcases ht with ht | ht
    · rw [ht, if_neg (by decide : ¬ (MatType.int32 = MatType.int64)),
        if_pos (rfl : MatType.int32 = MatType.int32), hdata]
      rfl
    · rw [ht, if_pos (rfl : MatType.int64 = MatType.int64), hdata]
      rfl
  · intro v hlen hbad
    simp only [load_image_size]
    have hshape : v.rank ≠ 2 ∨ v.isComplex = true ∨
        v.dims.getD 0 0 ≠ 1 ∨ v.dims.getD 1 0 ≠ 3 := by
      by_cases hr : v.rank = 2
      · rcases hbad with h | h | h
        · exact absurd hr h
        · exact Or.inr (Or.inl h)
        · have h2 : v.dims.length = 2 := by rw [hlen, hr]
          rcases list_len2_ne_pair h2 h with h | h
          · exact Or.inr (Or.inr (Or.inl h))
          · exact Or.inr (Or.inr (Or.inr h))
      · exact Or.inl hr
    rw [if_pos hshape]

/-- C5 witness: int32 values `[10, 20, 30]` with dims `[1, 3]` load as
`rows = 10, cols = 20, stride = 30`; the same data with dims `[1, 2]`
fails with `InvalidShapeError`. -/
theorem load_image_size_spec_witness :
    load_image_size (some (.mk .int32 2 [1, 3] false 12 4 [10, 20, 30] [] [] [])) =
      .ok ⟨10, 20, 30⟩ ∧
    load_image_size (some (.mk .int32 2 [1, 2] false 8 4 [10, 20] [] [] [])) =
      .error (.invalidShape "image_shape is invalid.  ") :=
  ⟨load_image_size_spec.1 _ 10 20 30 rfl rfl rfl (.inl rfl) rfl,
   load_image_size_spec.2 _ rfl (.inr (.inr (by decide)))⟩

/-- C4 counterexample: a record whose `list_of_atomic_superpixels` field is
typed int32 with `byteCount = 0`, hence `N = byteCount / elementSize = 0`:
the claim asks for an empty membership sequence, but the loader treats the
empty field as absent and fails with `MissingFieldError`. -/
theorem load_region_empty_field_counterexample :
    load_region (.mk .structType 2 [1, 1] false 8 8 [] []
        [("list_of_atomic_superpixels", .mk .int32 2 [1, 0] false 0 4 [] [] [] [])] []) =
      .error (.missingField "Struct is missing expected element: list_of_atomic_superpixels") ∧
    (MatVar.mk .int32 2 [1, 0] false 0 4 [] [] [] []).dataType = MatType.int32 ∧
    (MatVar.mk .int32 2 [1, 0] false 0 4 [] [] [] []).nbytes /
        (MatVar.mk .int32 2 [1, 0] false 0 4 [] [] [] []).dataSize = 0 :=
  ⟨rfl, rfl, rfl⟩

/-- C4 (amended). For a record whose int32 or int64
`list_of_atomic_superpixels` field is non-empty (`byteCount > 0`) and holds
`N = byteCount / elementSize` elements, `load_region` produces a membership
sequence of exactly those `N` source elements, widened (value-preserving)
and in source order. -/
theorem load_region_decodes (v sp : MatVar)
    (hs : v.dataType = MatType.structType)
    (hf : lookupField v.structFields "list_of_atomic_superpixels" = some sp)
    (hn : sp.nbytes ≠ 0)
    (ht : sp.dataType = MatType.int32 ∨ sp.dataType = MatType.int64)
    (hlen : sp.intData.length = sp.nbytes / sp.dataSize) :
    load_region v = .ok ⟨sp.intData⟩ ∧
    sp.intData.length = sp.nbytes / sp.dataSize := by
  refine ⟨?_, hlen⟩
  unfold load_region
  rw [if_neg (by simp [hs]), get_struct_field_found hf hn]
  have htake : sp.intData.take (sp.nbytes / sp.dataSize) = sp.intData := by
    rw [← hlen]
    exact List.take_length sp.intData
  rcases ht with ht | ht
  · simp [ht, htake]
  · simp [ht, htake]

/-- C4 witness: a 3-element int32 membership list `[4, 5, 6]` loads as the
sequence `[4, 5, 6]`. -/
theorem load_region_decodes_witness :
    load_region (.mk .structType 2 [1, 1] false 8 8 [] []
        [("list_of_atomic_superpixels", .mk .int32 2 [1, 3] false 12 4 [4, 5, 6] [] [] [])] []) =
      .ok ⟨[4, 5, 6]⟩ ∧
    (MatVar.mk .int32 2 [1, 3] false 12 4 [4, 5, 6] [] [] []).intData.length =
      (MatVar.mk .int32 2 [1, 3] false 12 4 [4, 5, 6] [] [] []).nbytes /
        (MatVar.mk .int32 2 [1, 3] false 12 4 [4, 5, 6] [] [] []).dataSize :=
  load_region_decodes
    (.mk .structType 2 [1, 1] false 8 8 [] []
      [("list_of_atomic_superpixels", .mk .int32 2 [1, 3] false 12 4 [4, 5, 6] [] [] [])] [])
    (.mk .int32 2 [1, 3] false 12 4 [4, 5, 6] [] [] [])
    rfl rfl (by decide) (.inl rfl) rfl

theorem load_region_node_list_aborts (done : List MatVar) (bad : MatVar)
    (rest : List MatVar) (e : LoadError)
    (hdone : ∀ c ∈ done, ∃ node, load_region_node_single c = .ok node)
    (hbad : load_region_node_single bad = .error e) :
    load_region_node_list (done ++ bad :: rest) = .error e := by
  induction done with
  | nil =>
    rw [List.nil_append]
    unfold load_region_node_list
    rw [hbad]
  | cons c doneRest ih =>
    obtain ⟨node, hnode⟩ := hdone c (List.mem_cons_self c doneRest)
    have ih2 := ih (fun x hx => hdone x (List.mem_cons_of_mem c hx))
    rw [List.cons_append]
    unfold load_region_node_list
    rw [hnode, ih2]

/-- C9. If processing some sibling element fails (every earlier element
having loaded successfully), `load_region_node_from_cell_array` returns no
partial node sequence: the whole call aborts with exactly the originating
error, unwrapped.  (The C++ `catch` block frees the cell-pointer array,
the only native resource this call owns, before re-throwing.) -/
theorem load_region_tree_aborts_on_error (v : MatVar) (done : List MatVar)
    (bad : MatVar) (rest : List MatVar) (e : LoadError)
    (hdt : v.dataType = MatType.cellType) (hb : ¬ v.nbytes < 1)
    (hcells : getCellsLinear v (get_total_element_count v) = some (done ++ bad :: rest))
    (hdone : ∀ c ∈ done, ∃ node, load_region_node_single c = .ok node)
    (hbad : load_region_node_single bad = .error e) :
    load_region_node_from_cell_array v = .error e := by
  unfold load_region_node_from_cell_array
  rw [if_neg (by
    intro hcontra
    rcases hcontra with h | h
    · exact h hdt
    · exact hb h)]
  split
  · rename_i hnone
    rw [hcells] at hnone
    cases hnone
  · rename_i all_cells hsome
    rw [hcells] at hsome
    injection hsome with hsome
    rw [← hsome]
    exact load_region_node_list_aborts done bad rest e hdone hbad

/-- C9 witness: a two-cell sibling array whose second cell lacks the `scale`
field loads to exactly the originating `MissingFieldError`, with no partial
output. -/
theorem load_region_tree_aborts_on_error_witness :
    load_region_node_from_cell_array
        (.mk .cellType 2 [1, 2] false 16 8 [] [] []
          [.mk .structType 2 [1, 1] false 8 8 [] []
            [("list_of_atomic_superpixels", .mk .int32 2 [1, 3] false 12 4 [4, 5, 6] [] [] []),
             ("scale", .mk .single 2 [1, 1] false 4 4 [] [77] [] [])] [],
           .mk .structType 2 [1, 1] false 8 8 [] []
            [("list_of_atomic_superpixels", .mk .int32 2 [1, 3] false 12 4 [4, 5, 6] [] [] [])] []]) =
      .error (.missingField "Struct is missing expected element: scale") := by
  refine load_region_tree_aborts_on_error _
    [.mk .structType 2 [1, 1] false 8 8 [] []
      [("list_of_atomic_superpixels", .mk .int32 2 [1, 3] false 12 4 [4, 5, 6] [] [] []),
       ("scale", .mk .single 2 [1, 1] false 4 4 [] [77] [] [])] []]
    (.mk .structType 2 [1, 1] false 8 8 [] []
      [("list_of_atomic_superpixels", .mk .int32 2 [1, 3] false 12 4 [4, 5, 6] [] [] [])] [])
    [] _ rfl (by decide) rfl ?_ ?_
  · intro c hc
    simp only [List.mem_singleton] at hc
    subst hc
    refine ⟨⟨⟨[4, 5, 6]⟩, .ofSingle 77, []⟩, ?_⟩
    simp [load_region_node_single, load_region_node_children, load_region, get_struct_field,
      lookupField, MatVar.dataType, MatVar.structFields, MatVar.nbytes, MatVar.intData,
      MatVar.floatData, MatVar.dataSize]
  · simp [load_region_node_single, load_region_node_children, load_region, get_struct_field,
      lookupField, MatVar.dataType, MatVar.structFields, MatVar.nbytes, MatVar.intData,
      MatVar.floatData, MatVar.dataSize]

/-- C6 counterexample: two single-node trees identical except that the first
cell has no `children` field at all while the second has a `children` field
that is present but empty (`nbytes = 0`): both load to the same leaf node,
so the two inputs are not observably distinguished. -/
theorem children_absent_vs_empty_conflated :
    load_region_node_from_cell_array
        (.mk .cellType 2 [1, 1] false 8 8 [] [] []
          [.mk .structType 2 [1, 1] false 8 8 [] []
            [("list_of_atomic_superpixels", .mk .int32 2 [1, 3] false 12 4 [4, 5, 6] [] [] []),
             ("scale", .mk .single 2 [1, 1] false 4 4 [] [77] [] [])] []]) =
      load_region_node_from_cell_array
        (.mk .cellType 2 [1, 1] false 8 8 [] [] []
          [.mk .structType 2 [1, 1] false 8 8 [] []
            [("list_of_atomic_superpixels", .mk .int32 2 [1, 3] false 12 4 [4, 5, 6] [] [] []),
             ("scale", .mk .single 2 [1, 1] false 4 4 [] [77] [] []),
             ("children", .mk .cellType 2 [1, 0] false 0 8 [] [] [] [])] []]) ∧
    lookupField (MatVar.mk .structType 2 [1, 1] false 8 8 [] []
        [("list_of_atomic_superpixels", .mk .int32 2 [1, 3] false 12 4 [4, 5, 6] [] [] []),
         ("scale", .mk .single 2 [1, 1] false 4 4 [] [77] [] [])] []).structFields
      "children" = none ∧
    lookupField (MatVar.mk .structType 2 [1, 1] false 8 8 [] []
        [("list_of_atomic_superpixels", .mk .int32 2 [1, 3] false 12 4 [4, 5, 6] [] [] []),
         ("scale", .mk .single 2 [1, 1] false 4 4 [] [77] [] []),
         ("children", .mk .cellType 2 [1, 0] false 0 8 [] [] [] [])] []).structFields
      "children" = some (.mk .cellType 2 [1, 0] false 0 8 [] [] [] []) ∧
    (MatVar.mk .cellType 2 [1, 0] false 0 8 [] [] [] []).nbytes = 0 := by
  refine ⟨?_, rfl, rfl, rfl⟩
  simp [load_region_node_from_cell_array, load_region_node_list, load_region_node_single,
    load_region_node_children, load_region, get_struct_field, lookupField,
    getCellsLinear, get_total_element_count, MatVar.dataType, MatVar.structFields,
    MatVar.nbytes, MatVar.intData, MatVar.floatData, MatVar.dataSize, MatVar.cellData,
    MatVar.dims, MatVar.rank]

/-- C6 (amended). An absent `children` field and a present-but-empty
(`nbytes = 0`) `children` field both yield a leaf node with an empty child
sequence: the loader's `get_struct_field` conflates the two cases, so they
produce the same observable result. -/
theorem children_absent_or_empty_is_leaf :
    (∀ (cell : MatVar) (node : HierarchicalRegion),
      lookupField cell.structFields "children" = none →
      load_region_node_single cell = .ok node → node.children_node = []) ∧
    (∀ (cell c : MatVar) (node : HierarchicalRegion),
      lookupField cell.structFields "children" = some c → c.nbytes = 0 →
      load_region_node_single cell = .ok node → node.children_node = []) := by
  have key : ∀ (cell : MatVar) (node : HierarchicalRegion),
      get_struct_field cell "children" true = .ok none →
      load_region_node_single cell = .ok node → node.children_node = [] := by
    intro cell node hch hsingle
    unfold load_region_node_single at hsingle
    split at hsingle
    · cases hsingle
    · split at hsingle
      · cases hsingle
      · cases hsingle
      · split at hsingle
        · unfold load_region_node_children at hsingle
          rw [hch] at hsingle
          cases node with
          | mk r s ch =>
            simp at hsingle
            simp [HierarchicalRegion.children_node, hsingle]
        · split at hsingle
          · unfold load_region_node_children at hsingle
            rw [hch] at hsingle
            cases node with
            | mk r s ch =>
              simp at hsingle
              simp [HierarchicalRegion.children_node, hsingle]
          · cases hsingle
  exact ⟨fun cell node h => key cell node (get_struct_field_absent h).2,
    fun cell c node h hn => key cell node (get_struct_field_empty h hn).2⟩

/-- C6 amended-claim witness: a concrete cell with no `children` field loads
to a node with an empty child sequence. -/
theorem children_absent_or_empty_is_leaf_witness :
    (⟨⟨[4, 5, 6]⟩, .ofSingle 77, []⟩ : HierarchicalRegion).children_node = [] :=
  children_absent_or_empty_is_leaf.1
    (.mk .structType 2 [1, 1] false 8 8 [] []
      [("list_of_atomic_superpixels", .mk .int32 2 [1, 3] false 12 4 [4, 5, 6] [] [] []),
       ("scale", .mk .single 2 [1, 1] false 4 4 [] [77] [] [])] [])
    ⟨⟨[4, 5, 6]⟩, .ofSingle 77, []⟩ rfl
    (by simp [load_region_node_single, load_region_node_children, load_region,
      get_struct_field, lookupField, MatVar.dataType, MatVar.structFields, MatVar.nbytes,
      MatVar.intData, MatVar.floatData, MatVar.dataSize])

mutual

/-- Well-formedness of one region-node record, matching the claim's
"record with a valid membership list and a single- or double-precision
scale", with well-formed children when the optional field is present. -/
inductive WFNode : MatVar → Prop where
  | mk (cell sp sc : MatVar)
      (hstruct : cell.dataType = MatType.structType)
      (hsp : lookupField cell.structFields "list_of_atomic_superpixels" = some sp)
      (hspn : sp.nbytes ≠ 0)
      (hspt : sp.dataType = MatType.int32 ∨ sp.dataType = MatType.int64)
      (hsc : lookupField cell.structFields "scale" = some sc)
      (hscn : sc.nbytes ≠ 0)
      (hsct : sc.dataType = MatType.single ∨ sc.dataType = MatType.double)
      (hch : ∀ ch, get_struct_field cell "children" true = .ok (some ch) →
        WFCellArray ch) : WFNode cell

/-- Well-formedness of a sibling cell array: a non-empty cell-typed variable
whose declared element count matches the actual cell count and all of whose
cells are well-formed region-node records. -/
inductive WFCellArray : MatVar → Prop where
  | mk (v : MatVar)
      (hcell : v.dataType = MatType.cellType)
      (hb : v.nbytes ≠ 0)
      (hn : get_total_element_count v = v.cellData.length)
      (hne : v.cellData ≠ [])
      (hall : ∀ c ∈ v.cellData, WFNode c) : WFCellArray v

end

theorem load_region_ok_of_wf {cell sp : MatVar}
    (hstruct : cell.dataType = MatType.structType)
    (hsp : lookupField cell.structFields "list_of_atomic_superpixels" = some sp)
    (hspn : sp.nbytes ≠ 0)
    (hspt : sp.dataType = MatType.int32 ∨ sp.dataType = MatType.int64) :
    load_region cell = .ok ⟨sp.intData.take (sp.nbytes / sp.dataSize)⟩ := by
  unfold load_region
  rw [if_neg (by simp [hstruct]), get_struct_field_found hsp hspn]
  rcases hspt with ht | ht
  · simp [ht]
  · simp [ht]

/-- The bundled induction behind C2, by strong induction on `sizeOf`: a
well-formed cell array loads to exactly one node per cell; a list of
well-formed cells loads to one node per cell with matching child counts; a
well-formed cell loads to a node whose child count is the cell's
`childCount`. -/
theorem load_region_tree_wf_aux : ∀ k : Nat,
    (∀ v : MatVar, sizeOf v < k → WFCellArray v →
      ∃ nodes, load_region_node_from_cell_array v = .ok nodes ∧
        nodes.length = v.cellData.length ∧
        ∀ (i : Nat) (h1 : i < nodes.length) (h2 : i < v.cellData.length),
          (nodes.get ⟨i, h1⟩).children_node.length =
            childCount (v.cellData.get ⟨i, h2⟩)) ∧
    (∀ l : List MatVar, sizeOf l < k → (∀ c ∈ l, WFNode c) →
      ∃ nodes, load_region_node_list l = .ok nodes ∧
        nodes.length = l.length ∧
        ∀ (i : Nat) (h1 : i < nodes.length) (h2 : i < l.length),
          (nodes.get ⟨i, h1⟩).children_node.length = childCount (l.get ⟨i, h2⟩)) ∧
    (∀ c : MatVar, sizeOf c < k → WFNode c →
      ∃ node, load_region_node_single c = .ok node ∧
        node.children_node.length = childCount c) := by
  intro k
  induction k with
  | zero => exact ⟨fun v h => absurd h (Nat.not_lt_zero _),
      fun l h => absurd h (Nat.not_lt_zero _),
      fun c h => absurd h (Nat.not_lt_zero _)⟩
  | succ k ih =>
    refine ⟨?_, ?_, ?_⟩
    · -- cell arrays
      intro v hsz hwf
      obtain ⟨_, hcell, hb, hn, hne, hall⟩ := hwf
      have hcells : getCellsLinear v (get_total_element_count v) = some v.cellData := by
        unfold getCellsLinear
        rw [hn, if_pos (Nat.le_refl _), List.take_length]
      have hszl : sizeOf v.cellData < k := by
        have := sizeOf_cellData_lt v
        omega
      obtain ⟨nodes, hload, hlen, hidx⟩ := ih.2.1 v.cellData hszl hall
      refine ⟨nodes, ?_, hlen, hidx⟩
      unfold load_region_node_from_cell_array
      rw [if_neg (by
        intro hcontra
        rcases hcontra with h | h
        · exact h hcell
        · omega)]
      split
      · rename_i hnone
        rw [hcells] at hnone
        cases hnone
      · rename_i all_cells hsome
        rw [hcells] at hsome
        injection hsome with hsome
        rw [← hsome]
        exact hload
    · -- lists of cells
      intro l hsz hall
      cases l with
      | nil =>
        refine ⟨[], ?_, rfl, ?_⟩
        · unfold load_region_node_list
          rfl
        · intro i h1 h2
          exact absurd h2 (Nat.not_lt_zero i)
      | cons c rest =>
        have hszc : sizeOf c < k := by
          have : sizeOf c < sizeOf (c :: rest) := by
            simp
            try omega
          omega
        have hszr : sizeOf rest < k := by
          have : sizeOf rest < sizeOf (c :: rest) := by
            simp
            try omega
          omega
        obtain ⟨node, hnode, hcount⟩ :=
          ih.2.2 c hszc (hall c (List.mem_cons_self c rest))
        obtain ⟨nodes, hnodes, hlen, hidx⟩ :=
          ih.2.1 rest hszr (fun x hx => hall x (List.mem_cons_of_mem c hx))
        refine ⟨node :: nodes, ?_, by simp [hlen], ?_⟩
        · unfold load_region_node_list
          rw [hnode, hnodes]
        · intro i h1 h2
          cases i with
          | zero => exact hcount
          | succ j =>
            have h1x : j < nodes.length := by simpa using h1
            have h2x : j < rest.length := by simpa using h2
            simpa using hidx j h1x h2x
    · -- single cells
      intro c hsz hwf
      obtain ⟨_, sp, sc, hstruct, hsp, hspn, hspt, hsc, hscn, hsct, hch⟩ := hwf
      have hreg := load_region_ok_of_wf hstruct hsp hspn hspt
      have hscf : get_struct_field c "scale" false = .ok (some sc) :=
        get_struct_field_found hsc hscn
      have hchildren : ∀ sv : ScaleVal,
          ∃ node, load_region_node_children c ⟨sp.intData.take (sp.nbytes / sp.dataSize)⟩ sv =
            .ok node ∧ node.children_node.length = childCount c := by
        intro sv
        unfold load_region_node_children
        split
        · rename_i e herr
          exact absurd herr (get_struct_field_optional_no_error c "children" e)
        · rename_i hnone
          refine ⟨⟨⟨sp.intData.take (sp.nbytes / sp.dataSize)⟩, sv, []⟩, rfl, ?_⟩
          unfold childCount
          rw [hnone]
          rfl
        · rename_i ch hsome
          have hwfch := hch ch hsome
          have hszch : sizeOf ch < k := by
            have h1 := sizeOf_get_struct_field_lt hsome
            omega
          obtain ⟨kids, hkids, hklen, _⟩ := ih.1 ch hszch hwfch
          rw [hkids]
          refine ⟨⟨⟨sp.intData.take (sp.nbytes / sp.dataSize)⟩, sv, kids⟩, rfl, ?_⟩
          unfold childCount
          rw [hsome]
          simpa [HierarchicalRegion.children_node] using hklen
      rcases hsct with ht | ht
      · obtain ⟨node, hnode, hcount⟩ := hchildren (ScaleVal.ofSingle (sc.floatData.getD 0 0))
        refine ⟨node, ?_, hcount⟩
        unfold load_region_node_single
        rw [hreg, hscf]
        simpa [ht] using hnode
      · obtain ⟨node, hnode, hcount⟩ := hchildren (ScaleVal.ofDouble (sc.floatData.getD 0 0))
        refine ⟨node, ?_, hcount⟩
        unfold load_region_node_single
        rw [hreg, hscf]
        simpa [ht] using hnode

/-- C2. A well-formed sibling sequence of `M >= 1` cells loads to exactly `M`
`HierarchicalRegion` nodes in input order, each node's child sequence
having the length of that cell's `children` cell sequence (`0` when the
optional `children` field is absent). -/
theorem load_region_tree_shape (v : MatVar) (hwf : WFCellArray v)
    (hM : 1 ≤ v.cellData.length) :
    ∃ nodes, load_region_node_from_cell_array v = .ok nodes ∧
      nodes.length = v.cellData.length ∧
      ∀ (i : Nat) (h1 : i < nodes.length) (h2 : i < v.cellData.length),
        (nodes.get ⟨i, h1⟩).children_node.length =
          childCount (v.cellData.get ⟨i, h2⟩) :=
  (load_region_tree_wf_aux (sizeOf v + 1)).1 v (Nat.lt_succ_self _) hwf

/-- A concrete leaf region-node record (no `children` field), fixture for the
C2 witness. -/
def sampleLeafCell : MatVar :=
  .mk .structType 2 [1, 1] false 8 8 [] []
    [("list_of_atomic_superpixels", .mk .int32 2 [1, 3] false 12 4 [4, 5, 6] [] [] []),
     ("scale", .mk .single 2 [1, 1] false 4 4 [] [77] [] [])] []

/-- A concrete one-cell child array holding `sampleLeafCell`, fixture for the
C2 witness. -/
def sampleChildArray : MatVar :=
  .mk .cellType 2 [1, 1] false 8 8 [] [] [] [sampleLeafCell]

/-- A concrete region-node record with one child level, fixture for the C2
witness. -/
def sampleParentCell : MatVar :=
  .mk .structType 2 [1, 1] false 8 8 [] []
    [("list_of_atomic_superpixels", .mk .int64 2 [1, 2] false 16 8 [9, 10] [] [] []),
     ("scale", .mk .double 2 [1, 1] false 8 8 [] [123] [] []),
     ("children", sampleChildArray)] []

/-- A concrete two-cell sibling array (a leaf and a one-child parent),
fixture for the C2 witness. -/
def sampleSiblings : MatVar :=
  .mk .cellType 2 [1, 2] false 16 8 [] [] [] [sampleLeafCell, sampleParentCell]

theorem sampleLeafCell_wf : WFNode sampleLeafCell := by
  refine WFNode.mk _ (.mk .int32 2 [1, 3] false 12 4 [4, 5, 6] [] [] [])
    (.mk .single 2 [1, 1] false 4 4 [] [77] [] [])
    rfl rfl (by decide) (.inl rfl) rfl (by decide) (.inl rfl) ?_
  intro ch h
  simp [get_struct_field, lookupField, sampleLeafCell, MatVar.structFields,
    MatVar.nbytes] at h

theorem sampleChildArray_wf : WFCellArray sampleChildArray := by
  refine WFCellArray.mk _ rfl (by decide) rfl (by simp [sampleChildArray, MatVar.cellData]) ?_
  intro c hc
  simp [sampleChildArray, MatVar.cellData] at hc
  subst hc
  exact sampleLeafCell_wf

theorem sampleParentCell_wf : WFNode sampleParentCell := by
  refine WFNode.mk _ (.mk .int64 2 [1, 2] false 16 8 [9, 10] [] [] [])
    (.mk .double 2 [1, 1] false 8 8 [] [123] [] [])
    rfl rfl (by decide) (.inr rfl) rfl (by decide) (.inr rfl) ?_
  intro ch h
  simp [get_struct_field, lookupField, sampleParentCell, sampleChildArray,
    MatVar.structFields, MatVar.nbytes] at h
  subst h
  exact sampleChildArray_wf

theorem sampleSiblings_wf : WFCellArray sampleSiblings := by
  refine WFCellArray.mk _ rfl (by decide) rfl (by simp [sampleSiblings, MatVar.cellData]) ?_
  intro c hc
  simp [sampleSiblings, MatVar.cellData] at hc
  rcases hc with hc | hc
  · subst hc
    exact sampleLeafCell_wf
  · subst hc
    exact sampleParentCell_wf

/-- C2 witness: the two-cell fixture loads to two nodes whose child counts
match the cells' child sequences. -/
theorem load_region_tree_shape_witness :
    ∃ nodes, load_region_node_from_cell_array sampleSiblings = .ok nodes ∧
      nodes.length = sampleSiblings.cellData.length ∧
      ∀ (i : Nat) (h1 : i < nodes.length) (h2 : i < sampleSiblings.cellData.length),
        (nodes.get ⟨i, h1⟩).children_node.length =
          childCount (sampleSiblings.cellData.get ⟨i, h2⟩) :=
  load_region_tree_shape sampleSiblings sampleSiblings_wf (by decide)
